import Mathlib

/-!
# goboxer: transactional-outbox poller

A shallow embedding of the three source files of the repository

* `internal/outbox_message.go`   (the `OutboxMessage` record and the status constants),
* `internal/service_provider.go` (the `StubServiceProvider` registry),
* `main.go`                      (the worker `run` and the orchestrator loop of `main`),

followed by the theorems that settle the claims C1 .. C10.

Conventions of the embedding.

* A Go `map[string]*ServiceConfig` is an association list with unique keys; the nil map and
  the empty map are both `[]` (they have the same `len` and the same `range`).
* Every call into `database/sql` is an event of a trace.  The outcome of a call that can
  fail (`sql.Open`, `Ping`, the probe query, `BeginTx`, `Query`, `Scan`, `Commit`) is supplied
  by the environment.
* A Go pointer that may be nil (`*sql.Tx`, `*sql.Rows`) is an `Option`.  Calling a method of
  `database/sql` on a nil `*sql.Tx` or nil `*sql.Rows` reads a field of the receiver and is a
  run-time panic (nil pointer dereference).
* `defer` and panics follow the Go specification: deferred calls run last-in first-out when the
  function returns or panics, a panic inside a deferred call stops that call only, and a panic
  that is not recovered leaves the goroutine panicking, which terminates the whole process.
-/

namespace Goboxer

/-! ## internal/outbox_message.go -/

/-- The constant `statusToProcess`. -/
def statusToProcess : String := "new"

/-- The constant `statusDone`. -/
def statusDone : String := "done"

/-- The constant `statusError`. -/
def statusError : String := "error"

/-- The record `OutboxMessage`.  `ID` is an `int64` and `AttemptCount` an `int8` in the source;
the program only copies these values (no arithmetic), so they are kept as integers. -/
structure OutboxMessage where
  ID : Int
  Body : String
  Meta : String
  Status : String
  AttemptCount : Int
  deriving DecidableEq, Repr

/-- The Go zero value of `OutboxMessage` (`var message internal.OutboxMessage`). -/
def OutboxMessage.zero : OutboxMessage :=
  { ID := 0, Body := "", Meta := "", Status := "", AttemptCount := 0 }

/-! ## internal/service_provider.go -/

/-- Modelled from the spec: the declaration of the type `ServiceConfig` is not among the source
files; the spec gives it the two fields `dsn` and `driver`, and the code builds and reads it
through the fields `Dsn` and `Driver`. -/
structure ServiceConfig where
  Dsn : String
  Driver : String
  deriving DecidableEq, Repr

/-- A Go `map[string]*ServiceConfig`: association list with unique keys. -/
abbrev ServiceMap := List (String × ServiceConfig)

/-- The assignment `m[k] = v` on a Go map: replaces the entry of an existing key, adds a new
entry otherwise. -/
def mapSet (m : ServiceMap) (k : String) (v : ServiceConfig) : ServiceMap :=
  match m with
  | [] => [(k, v)]
  | (k0, v0) :: rest => if k0 = k then (k, v) :: rest else (k0, v0) :: mapSet rest k v

/-- The builtin `len(m)` on a Go map. -/
def mapLen (m : ServiceMap) : Nat := m.length

/-- The struct `StubServiceProvider`. -/
structure StubServiceProvider where
  Booted : Bool
  Cnt : Int
  ServicesConfigs : ServiceMap
  deriving DecidableEq, Repr

/-- The zero value `&internal.StubServiceProvider{}` built by `main`. -/
def StubServiceProvider.zero : StubServiceProvider :=
  { Booted := false, Cnt := 0, ServicesConfigs := [] }

/-- The DSN literal both entries of `Boot` carry. -/
def stubDsn : String := "root:2eXFSPmS@tcp(127.0.0.1:3317)/shopping-delivery"

/-- The method `Boot`: sets `Cnt` to 1, replaces the map by a fresh one holding the entries
`Any` and `Other`, and sets `Booted`. -/
def StubServiceProvider.Boot (p : StubServiceProvider) : StubServiceProvider :=
  let p1 : StubServiceProvider := { p with Cnt := 1 }
  let p2 : StubServiceProvider := { p1 with ServicesConfigs := [] }
  let p3 : StubServiceProvider :=
    { p2 with ServicesConfigs := mapSet p2.ServicesConfigs "Any" (ServiceConfig.mk stubDsn "mysql") }
  let p4 : StubServiceProvider :=
    { p3 with ServicesConfigs := mapSet p3.ServicesConfigs "Other" (ServiceConfig.mk stubDsn "mysql") }
  { p4 with Booted := true }

/-- The method `GetServicesCnt`: the returned count and the provider after the call. -/
def StubServiceProvider.GetServicesCnt (p : StubServiceProvider) : Int × StubServiceProvider :=
  let p1 := if !p.Booted then p.Boot else p
  (p1.Cnt, p1)

/-- The method `GetServicesList`: the returned map and the provider after the call. -/
def StubServiceProvider.GetServicesList (p : StubServiceProvider) :
    ServiceMap × StubServiceProvider :=
  let p1 := if !p.Booted then p.Boot else p
  (p1.ServicesConfigs, p1)

/-! ## main.go: the worker `run` -/

/-- One row of the table `message_outbox`, by column name. -/
structure Row where
  id : Int
  body : String
  meta : String
  status : String
  attempt_count : Int
  deriving DecidableEq, Repr

/-- The rows returned by the statement of `run`,
`SELECT id, body, meta, status, attempt_count FROM message_outbox WHERE status = ? LIMIT 10
FOR UPDATE` with the argument `"new"`: the rows whose status is the argument, in table order,
at most ten of them.  (The comparison is taken to be exact, as under a binary collation.) -/
def selectForUpdate (table : List Row) : List Row :=
  (table.filter (fun r => r.status = "new")).take 10

/-- The handle a statement is issued on: the pool `db` or the transaction `tx`. -/
inductive Handle where
  | pool
  | tx
  deriving DecidableEq, Repr

/-- The columns of the SELECT list, which are the destinations of `rows.Scan`, in order. -/
inductive Column where
  | id
  | body
  | meta
  | status
  | attemptCount
  deriving DecidableEq, Repr

/-- The destinations of `rows.Scan` in the order of the call. -/
def Column.all : List Column :=
  [Column.id, Column.body, Column.meta, Column.status, Column.attemptCount]

/-- The outcome of `tx.Commit()`: success, an error returned after the transaction was finished
(driver error), or an error returned before it was finished (context already done). -/
inductive CommitOutcome where
  | ok
  | failedDone
  | failedOpen
  deriving DecidableEq, Repr

/-- Events of one invocation of `run`, in program order. -/
inductive RunEvent where
  | beginTx (ok : Bool)
  | query (h : Handle) (ok : Bool)
  | next (more : Bool)
  | scan (ok : Bool)
  | commit (ok : Bool)
  | rollback (live : Bool)
  | rowsClose
  | dbClose
  | wgDone
  | logError (msg : String)
  | logInfo (msg : String)
  | logCount (count : Nat)
  | nilDeref (call : String)
  deriving DecidableEq, Repr

/-- What the environment decides in one invocation of `run`: the outcome of `BeginTx`, of
`Query`, of each successive `Scan` (`none` is success, `some c` a failure at destination `c`;
a missing entry is success), of `Commit`, and the content of the table. -/
structure RunEnv where
  beginOk : Bool
  queryOk : Bool
  table : List Row
  scans : List (Option Column)
  commit : CommitOutcome
  deriving DecidableEq, Repr

/-- The assignment `Scan` makes to one destination. -/
def assignColumn (c : Column) (r : Row) (m : OutboxMessage) : OutboxMessage :=
  match c with
  | Column.id => { m with ID := r.id }
  | Column.body => { m with Body := r.body }
  | Column.meta => { m with Meta := r.meta }
  | Column.status => { m with Status := r.status }
  | Column.attemptCount => { m with AttemptCount := r.attempt_count }

/-- The loop of `(*sql.Rows).Scan` over the destinations: each column is converted and assigned
in order, and the first failing conversion returns the error, leaving that destination and the
later ones untouched. -/
def scanColumns (fail : Option Column) (r : Row) : List Column → OutboxMessage → OutboxMessage × Bool
  | [], m => (m, true)
  | c :: cs, m =>
    if fail = some c then (m, false) else scanColumns fail r cs (assignColumn c r m)

/-- The call `rows.Scan(&message.ID, &message.Body, &message.Meta, &message.Status,
&message.AttemptCount)` on a fresh `message`: the message after the call and whether `err` is
nil. -/
def Scan (fail : Option Column) (r : Row) : OutboxMessage × Bool :=
  scanColumns fail r Column.all OutboxMessage.zero

/-- The state of the loop `for rows.Next()`. -/
structure LoopState where
  messages : List OutboxMessage
  events : List RunEvent
  deriving Repr

/-- The loop `for rows.Next() { ... }` of `run` (lines 151 to 158): every row is scanned into a
fresh message, a scan error is logged, and the message is appended in either case. -/
def scanLoop : List Row → List (Option Column) → LoopState → LoopState
  | [], _, st => { st with events := st.events ++ [RunEvent.next false] }
  | r :: rs, outcomes, st =>
    let res := Scan (outcomes.headD none) r
    let ev := [RunEvent.next true, RunEvent.scan res.2] ++
      (if res.2 then [] else [RunEvent.logError "Failed to scan message"])
    scanLoop rs outcomes.tail
      { messages := st.messages ++ [res.1], events := st.events ++ ev }

/-- What one part of `run` produces: its events, the batch, whether it panicked, and whether
the transaction is still open afterwards. -/
structure Part where
  events : List RunEvent
  messages : List OutboxMessage
  panicked : Bool
  txOpen : Bool
  deriving Repr

/-- Lines 151 to 166 of `run`, executed after both `defer` statements: the loop over `rows`
(a nil `rows` panics in `rows.Next()`), the count log, `tx.Commit()` (a nil `tx` panics), and
the final log. -/
def runBody (env : RunEnv) (tx : Option Unit) (rows : Option (List Row)) : Part :=
  match rows with
  | none =>
    { events := [RunEvent.nilDeref "rows.Next"], messages := [], panicked := true,
      txOpen := tx.isSome }
  | some rs =>
    let st := scanLoop rs env.scans { messages := [], events := [] }
    let ev := st.events ++ [RunEvent.logInfo "Got messages", RunEvent.logCount st.messages.length]
    match tx with
    | none =>
      { events := ev ++ [RunEvent.nilDeref "tx.Commit"], messages := st.messages,
        panicked := true, txOpen := false }
    | some _ =>
      let ok := decide (env.commit = CommitOutcome.ok)
      { events := ev ++ [RunEvent.commit ok] ++
          (if ok then [] else [RunEvent.logError "Failed to commit transaction"]) ++
          [RunEvent.logInfo "Commited. Iteration done"],
        messages := st.messages, panicked := false,
        txOpen := decide (env.commit = CommitOutcome.failedOpen) }

/-- The deferred call `rows.Close()` (line 149); it panics on a nil `rows`. -/
def deferredRowsClose (rows : Option (List Row)) : List RunEvent × Bool :=
  match rows with
  | none => ([RunEvent.nilDeref "rows.Close"], true)
  | some _ => ([RunEvent.rowsClose], false)

/-- The deferred function of lines 132 to 136: `tx.Rollback()`, `db.Close()`, `wg.Done()`.
On a nil `tx` the first call panics and the other two are not reached. -/
def deferredCleanup (tx : Option Unit) (txOpen : Bool) : List RunEvent × Bool :=
  match tx with
  | none => ([RunEvent.nilDeref "tx.Rollback"], true)
  | some _ => ([RunEvent.rollback txOpen, RunEvent.dbClose, RunEvent.wgDone], false)

/-- The result of one invocation of `run`: the trace, the batch `messages`, and whether the
goroutine ends panicking (which terminates the process) instead of returning. -/
structure RunResult where
  trace : List RunEvent
  messages : List OutboxMessage
  panicked : Bool
  deriving Repr

/-- The function `run` (lines 124 to 167). -/
def run (env : RunEnv) : RunResult :=
  -- tx, err := db.BeginTx(...)
  let tx : Option Unit := if env.beginOk then some () else none
  let e1 := [RunEvent.beginTx env.beginOk] ++
    (if env.beginOk then [] else [RunEvent.logError "Failed to begin transaction"])
  -- rows, err := db.Query(...): issued on `db`
  let rows : Option (List Row) := if env.queryOk then some (selectForUpdate env.table) else none
  let e2 := [RunEvent.query Handle.pool env.queryOk] ++
    (if env.queryOk then [] else [RunEvent.logError "Failed to query database"])
  let body := runBody env tx rows
  -- the deferred calls, last registered first
  let d1 := deferredRowsClose rows
  let d2 := deferredCleanup tx body.txOpen
  { trace := e1 ++ e2 ++ body.events ++ d1.1 ++ d2.1,
    messages := body.messages,
    panicked := body.panicked || d1.2 || d2.2 }

/-- The value of the WaitGroup counter after a trace of `run` that started at `wg`. -/
def wgAfter (wg : Int) (trace : List RunEvent) : Int :=
  wg - (trace.count RunEvent.wgDone : Nat)

/-- The error logs of a trace. -/
def errorLogs (trace : List RunEvent) : List String :=
  trace.filterMap (fun e => match e with
    | RunEvent.logError msg => some msg
    | _ => none)

/-! ## main.go: one round of the orchestrator loop -/

/-- One entry of `registeredServices` together with what the environment decides for it in
this round: the outcome of `sql.Open`, of `db.Ping`, of the probe query, and the environment of
the worker that runs if the backend is admitted. -/
structure Backend where
  name : String
  config : ServiceConfig
  openOk : Bool
  pingOk : Bool
  probeOk : Bool
  worker : RunEnv
  deriving Repr

/-- Events of the process: the orchestrator loop, the signal goroutine and the workers. -/
inductive MainEvent where
  | getServicesList
  | logInfo (msg : String) (name : String)
  | logError (msg : String)
  | sqlOpen (name : String) (ok : Bool)
  | ping (name : String) (ok : Bool)
  | probe (name : String) (ok : Bool)
  | wgAdd
  | go (name : String)
  | worker (name : String) (e : RunEvent)
  | wgWait
  | sleep
  | crash
  | cancel
  | signalStop
  | osExit (code : Nat)
  deriving DecidableEq, Repr

/-- The body of the loop `for serviceName, serviceConfig := range registeredServices` (lines 95
to 115) for one backend: its events and whether the worker was launched.  Each `continue`
ends the body without a launch. -/
def connect (b : Backend) : List MainEvent × Bool :=
  let e0 := [MainEvent.logInfo "Registering service" b.name, MainEvent.sqlOpen b.name b.openOk]
  if !b.openOk then
    (e0 ++ [MainEvent.logError "Failed to open database"], false)
  else
    let e1 := e0 ++ [MainEvent.ping b.name b.pingOk]
    if !b.pingOk then
      (e1 ++ [MainEvent.logError "Failed to ping database"], false)
    else
      let e2 := e1 ++ [MainEvent.probe b.name b.probeOk]
      if !b.probeOk then
        (e2 ++ [MainEvent.logError "Cannot probe `message_outbox` table"], false)
      else
        (e2 ++ [MainEvent.wgAdd, MainEvent.go b.name], true)

/-- The loop of lines 94 to 116 over the entries of the map, in the order the iteration
visits them. -/
def roundLoop : List Backend → List MainEvent
  | [] => []
  | b :: rest => (connect b).1 ++ roundLoop rest

/-- The backends whose worker the loop launched, in launch order. -/
def launched : List Backend → List Backend
  | [] => []
  | b :: rest => if (connect b).2 then b :: launched rest else launched rest

/-- The events of the launched workers, each worker in its own program order. -/
def workerEvents (ws : List Backend) : List MainEvent :=
  ws.flatMap (fun b => (run b.worker).trace.map (MainEvent.worker b.name))

/-- One round (lines 93 to 119, after `GetServicesList`): the loop, the workers it launched,
then `wg.Wait()` and the sleep.  A worker that ends panicking terminates the process, so the
round then ends in `crash`; in that case the worker events listed are those that can have
happened before the termination. -/
def round (bs : List Backend) : List MainEvent :=
  let ws := launched bs
  roundLoop bs ++ workerEvents ws ++
    (if ws.any (fun b => (run b.worker).panicked) then [MainEvent.crash]
     else [MainEvent.wgWait, MainEvent.sleep])

/-! ## main.go: the process as a transition system

The main goroutine (the loop of lines 92 to 120), the signal goroutine (lines 66 to 85) and the
launched workers run concurrently; a schedule is a list of actions, each of which lets one of
them execute.  A worker is one action: its whole `run`, on the context as it is at that moment
(`BeginTx(ctx, ...)` returns the error of a context that is already cancelled).  The process
ends either in `os.Exit(1)` of the signal goroutine or in the panic of a worker. -/

/-- Where the main goroutine stands: before `GetServicesList` (line 93), inside the `range` with
the entries still to visit (line 94), at `wg.Wait()` (line 118), at the sleep (line 119). -/
inductive MainPc where
  | fetch
  | iterate (rest : ServiceMap)
  | wait
  | sleep
  deriving DecidableEq, Repr

/-- Where the signal goroutine stands: blocked in `sig := <-c`, then (the three branches of the
switch are the same) at the log, at `cancel()`, at `signal.Stop(c)`, at `os.Exit(1)`. -/
inductive HandlerPc where
  | receive
  | log
  | cancel
  | stop
  | exit
  deriving DecidableEq, Repr

/-- The state of the process: the provider, the two program counters, the signals buffered in
the channel `c`, whether the shared context is cancelled, whether the process has ended by
`os.Exit(1)`, whether it has ended by the panic of a worker, the WaitGroup counter, the names
of the launched workers that have not run yet, and the events so far. -/
structure Proc where
  provider : StubServiceProvider
  mainPc : MainPc
  handlerPc : HandlerPc
  signals : Nat
  ctxCancelled : Bool
  exited : Bool
  crashed : Bool
  wg : Nat
  running : List String
  events : List MainEvent
  deriving Repr

/-- The state when the loop is entered: zero-value provider, live context, nothing pending. -/
def Proc.init : Proc :=
  { provider := StubServiceProvider.zero, mainPc := MainPc.fetch,
    handlerPc := HandlerPc.receive, signals := 0, ctxCancelled := false, exited := false,
    crashed := false, wg := 0, running := [], events := [] }

/-- The outcome of the three connector calls for one backend. -/
structure ConnOutcome where
  openOk : Bool
  pingOk : Bool
  probeOk : Bool
  deriving DecidableEq, Repr

/-- The worker environment in which every step succeeds on an empty table. -/
def RunEnv.idle : RunEnv :=
  { beginOk := true, queryOk := true, table := [], scans := [], commit := CommitOutcome.ok }

/-- An action of a schedule: the system delivers SIGINT or SIGTERM to the channel `c`; the
signal goroutine executes its next statement; the main goroutine executes its next step (with
the outcome of the connector calls, used when the step visits a backend); the launched worker
of the given name runs, in the given environment. -/
inductive Action where
  | signal
  | handler
  | main (o : ConnOutcome)
  | worker (name : String) (env : RunEnv)
  deriving DecidableEq, Repr

/-- The next step of the main goroutine.  No step reads `ctxCancelled`. -/
def mainStep (o : ConnOutcome) (s : Proc) : Option Proc :=
  match s.mainPc with
  | MainPc.fetch =>
    let res := s.provider.GetServicesList
    some { s with provider := res.2, mainPc := MainPc.iterate res.1,
                  events := s.events ++ [MainEvent.getServicesList] }
  | MainPc.iterate [] => some { s with mainPc := MainPc.wait }
  | MainPc.iterate ((name, cfg) :: rest) =>
    let res := connect { name := name, config := cfg, openOk := o.openOk, pingOk := o.pingOk,
                         probeOk := o.probeOk, worker := RunEnv.idle }
    some { s with mainPc := MainPc.iterate rest, events := s.events ++ res.1,
                  wg := if res.2 then s.wg + 1 else s.wg,
                  running := if res.2 then s.running ++ [name] else s.running }
  | MainPc.wait =>
    if s.wg = 0 then some { s with mainPc := MainPc.sleep, events := s.events ++ [MainEvent.wgWait] }
    else none
  | MainPc.sleep => some { s with mainPc := MainPc.fetch, events := s.events ++ [MainEvent.sleep] }

/-- The next statement of the signal goroutine. -/
def handlerStep (s : Proc) : Option Proc :=
  match s.handlerPc with
  | HandlerPc.receive =>
    if s.signals = 0 then none
    else some { s with signals := s.signals - 1, handlerPc := HandlerPc.log }
  | HandlerPc.log =>
    some { s with handlerPc := HandlerPc.cancel,
                  events := s.events ++ [MainEvent.logInfo "Stopped application" "signal"] }
  | HandlerPc.cancel =>
    some { s with handlerPc := HandlerPc.stop, ctxCancelled := true,
                  events := s.events ++ [MainEvent.cancel] }
  | HandlerPc.stop =>
    some { s with handlerPc := HandlerPc.exit, events := s.events ++ [MainEvent.signalStop] }
  | HandlerPc.exit =>
    some { s with exited := true, events := s.events ++ [MainEvent.osExit 1] }

/-- The run of a launched worker: `run` with `BeginTx` failing if the context is cancelled.
Its `wg.Done()` lowers the counter; if it ends panicking, the process ends with it. -/
def workerStep (name : String) (env : RunEnv) (s : Proc) : Option Proc :=
  if name ∈ s.running then
    let res := run { env with beginOk := env.beginOk && !s.ctxCancelled }
    let s1 : Proc :=
      { s with running := s.running.erase name,
               wg := s.wg - res.trace.count RunEvent.wgDone,
               events := s.events ++ res.trace.map (MainEvent.worker name) }
    if res.panicked then
      some { s1 with crashed := true, events := s1.events ++ [MainEvent.crash] }
    else some s1
  else none

/-- One action of a schedule; `none` when the action is not enabled.  Nothing is enabled once the
process has ended. -/
def step (a : Action) (s : Proc) : Option Proc :=
  if s.exited || s.crashed then none
  else
    match a with
    | Action.signal => if s.signals < 2 then some { s with signals := s.signals + 1 } else some s
    | Action.handler => handlerStep s
    | Action.main o => mainStep o s
    | Action.worker name env => workerStep name env s

/-- Runs a schedule from a state; `none` when some action of it is not enabled. -/
def exec : List Action → Proc → Option Proc
  | [], s => some s
  | a :: rest, s => (step a s).bind (exec rest)

/-- The number of calls of `GetServicesList` among events. -/
def roundCount (l : List MainEvent) : Nat := l.count MainEvent.getServicesList

/-- Whether an event is the launch of a worker. -/
def isGo (e : MainEvent) : Bool :=
  match e with
  | MainEvent.go _ => true
  | _ => false

/-- The number of worker launches among events. -/
def launchCount (l : List MainEvent) : Nat := (l.filter isGo).length

/-- The number of rounds started: calls of `GetServicesList` in the events. -/
def roundsStarted (s : Proc) : Nat := roundCount s.events

/-- The number of worker launches in the events. -/
def launches (s : Proc) : Nat := launchCount s.events

/-- Whether the action is the step of the main goroutine at line 93, the call of
`GetServicesList`. -/
def startsRound (a : Action) (s : Proc) : Bool :=
  match a, s.mainPc with
  | Action.main _, MainPc.fetch => true
  | _, _ => false

/-- Whether the action is the step of the main goroutine that visits a backend whose three
connector steps succeed (lines 95 to 115). -/
def launchesWorker (a : Action) (s : Proc) : Bool :=
  match a, s.mainPc with
  | Action.main o, MainPc.iterate (_ :: _) => o.openOk && o.pingOk && o.probeOk
  | _, _ => false

/-- The statements the signal goroutine has still to execute, `os.Exit(1)` included. -/
def handlerRemaining (s : Proc) : Nat :=
  match s.handlerPc with
  | HandlerPc.receive => 5
  | HandlerPc.log => 4
  | HandlerPc.cancel => 3
  | HandlerPc.stop => 2
  | HandlerPc.exit => if s.exited then 0 else 1

/-! ## Environments used as concrete inputs -/

/-- A row whose status is `new`. -/
def rowNew (i : Int) : Row :=
  { id := i, body := "payload", meta := "headers", status := "new", attempt_count := 0 }

/-- A worker environment in which `BeginTx` fails and everything else succeeds. -/
def envBeginFails : RunEnv :=
  { beginOk := false, queryOk := true, table := [rowNew 1], scans := [],
    commit := CommitOutcome.ok }

/-- A worker environment in which `Query` fails and everything else succeeds. -/
def envQueryFails : RunEnv :=
  { beginOk := true, queryOk := false, table := [rowNew 1], scans := [],
    commit := CommitOutcome.ok }

/-- A worker environment in which every step succeeds, on a table with one eligible row. -/
def envAllOk : RunEnv :=
  { beginOk := true, queryOk := true, table := [rowNew 1], scans := [],
    commit := CommitOutcome.ok }

/-- A worker environment in which every step succeeds except the scan of the only row, which
fails at the destination `body` (as for a NULL body). -/
def envScanFails : RunEnv :=
  { beginOk := true, queryOk := true, table := [rowNew 1], scans := [some Column.body],
    commit := CommitOutcome.ok }

/-- A worker environment in which every step succeeds, on a table with 25 eligible rows. -/
def env25 : RunEnv :=
  { beginOk := true, queryOk := true, table := (List.range 25).map (fun i => rowNew i),
    scans := [], commit := CommitOutcome.ok }

/-- A backend whose `sql.Open` succeeds and whose `Ping` fails. -/
def backendPingFails : Backend :=
  { name := "Any", config := ServiceConfig.mk stubDsn "mysql", openOk := true, pingOk := false,
    probeOk := true, worker := RunEnv.idle }

/-- A backend whose `sql.Open` and `Ping` succeed and whose probe query fails. -/
def backendProbeFails : Backend :=
  { name := "Other", config := ServiceConfig.mk stubDsn "mysql", openOk := true, pingOk := true,
    probeOk := false, worker := RunEnv.idle }

/-- A backend that passes the three connector steps and whose worker succeeds. -/
def backendOk : Backend :=
  { name := "Third", config := ServiceConfig.mk stubDsn "mysql", openOk := true, pingOk := true,
    probeOk := true, worker := RunEnv.idle }

/-- A round with one backend rejected at the ping, one rejected at the probe, one admitted. -/
def roundMixed : List Backend := [backendPingFails, backendProbeFails, backendOk]

/-- The connector outcome in which the three steps succeed. -/
def ConnOutcome.allOk : ConnOutcome := { openOk := true, pingOk := true, probeOk := true }

/-- The schedule in which a signal arrives and the signal goroutine runs up to and including
`cancel()`, before the main goroutine has made any step. -/
def schedCancelled : List Action :=
  [Action.signal, Action.handler, Action.handler, Action.handler]

/-- The claim C9 as stated: from a reachable state in which the context is cancelled, no
continuation of the schedule starts a round or launches a worker. -/
def NoRoundAfterCancel : Prop :=
  ∀ (acts : List Action) (s : Proc), exec acts Proc.init = some s → s.ctxCancelled = true →
    ∀ (more : List Action) (t : Proc), exec more s = some t →
      roundsStarted t = roundsStarted s ∧ launches t = launches s

/-- The state reached by `schedCancelled`. -/
def procCancelled : Proc := (exec schedCancelled Proc.init).getD Proc.init

/-- The two steps of the main goroutine that call `GetServicesList` and visit the first
backend, whose three connector steps succeed. -/
def schedRound : List Action :=
  [Action.main ConnOutcome.allOk, Action.main ConnOutcome.allOk]

/-- The state reached from `procCancelled` by `schedRound`. -/
def procNextRound : Proc := (exec schedRound procCancelled).getD Proc.init

/-- The order of the signal goroutine: the context is cancelled exactly when the goroutine
stands at `signal.Stop(c)` or at `os.Exit(1)`, and the process has exited only from
`os.Exit(1)`. -/
def CancelBeforeExit (s : Proc) : Prop :=
  (s.ctxCancelled = true ↔ (s.handlerPc = HandlerPc.stop ∨ s.handlerPc = HandlerPc.exit)) ∧
  (s.exited = true → s.handlerPc = HandlerPc.exit)

/-! ## Theorems: the service provider -/

/-- C8: `GetServicesList` and `GetServicesCnt` are lazily initialising and idempotent.  For
every provider state, a call leaves a booted provider unchanged and turns an unbooted one into
`Boot` of it, returning the field of the resulting provider; `Boot` yields the populated
configuration (the entries `Any` and `Other`) with `Booted` set; and a second call returns the
same result and the same provider as the first. -/
theorem getServices_lazy_idempotent (p : StubServiceProvider) :
    p.GetServicesList.2 = (if p.Booted then p else p.Boot) ∧
    p.GetServicesList.1 = (if p.Booted then p else p.Boot).ServicesConfigs ∧
    p.GetServicesCnt.2 = (if p.Booted then p else p.Boot) ∧
    p.GetServicesCnt.1 = (if p.Booted then p else p.Boot).Cnt ∧
    p.Boot.Booted = true ∧
    p.Boot.ServicesConfigs =
      [("Any", ServiceConfig.mk stubDsn "mysql"), ("Other", ServiceConfig.mk stubDsn "mysql")] ∧
    p.GetServicesList.2.GetServicesList = p.GetServicesList ∧
    p.GetServicesCnt.2.GetServicesCnt = p.GetServicesCnt ∧
    p.GetServicesList.2.Booted = true ∧
    p.GetServicesCnt.2.Booted = true := by
  have hb : p.Boot.Booted = true := rfl
  have hm : p.Boot.ServicesConfigs =
      [("Any", ServiceConfig.mk stubDsn "mysql"), ("Other", ServiceConfig.mk stubDsn "mysql")] := by
    simp [StubServiceProvider.Boot, mapSet]
  cases hp : p.Booted <;>
    simp [StubServiceProvider.GetServicesList, StubServiceProvider.GetServicesCnt, hp, hb, hm]

/-- C10 (the code at the failing input): after `Boot`, and in particular from the zero value,
`GetServicesCnt` returns 1 while the map returned by `GetServicesList` has 2 entries. -/
theorem cnt_differs_from_list_length (p : StubServiceProvider) :
    p.Boot.GetServicesCnt.1 = 1 ∧ mapLen p.Boot.GetServicesList.1 = 2 ∧
    StubServiceProvider.zero.GetServicesCnt.1 = 1 ∧
    mapLen StubServiceProvider.zero.GetServicesList.1 = 2 := by
  have hb : p.Boot.Booted = true := rfl
  refine ⟨?_, ?_, by decide, by decide⟩
  · simp [StubServiceProvider.GetServicesCnt, hb]
    rfl
  · simp [StubServiceProvider.GetServicesList, hb]
    simp [StubServiceProvider.Boot, mapSet, mapLen]

/-! ## Theorems: the worker -/

/-- The loop appends to the events it starts from, and what it appends are only `next`, `scan`
and the scan error log. -/
theorem scanLoop_events (rs : List Row) (os : List (Option Column)) (st : LoopState) :
    ∃ tail, (scanLoop rs os st).events = st.events ++ tail ∧
      ∀ e ∈ tail, (∃ b, e = RunEvent.next b) ∨ (∃ b, e = RunEvent.scan b) ∨
        e = RunEvent.logError "Failed to scan message" := by
  induction rs generalizing os st with
  | nil => exact ⟨[RunEvent.next false], rfl, by simp⟩
  | cons r rs ih =>
    obtain ⟨tail, h1, h2⟩ := ih os.tail
      { messages := st.messages ++ [(Scan (os.headD none) r).1],
        events := st.events ++ ([RunEvent.next true, RunEvent.scan (Scan (os.headD none) r).2] ++
          (if (Scan (os.headD none) r).2 then [] else [RunEvent.logError "Failed to scan message"])) }
    refine ⟨([RunEvent.next true, RunEvent.scan (Scan (os.headD none) r).2] ++
          (if (Scan (os.headD none) r).2 then [] else
            [RunEvent.logError "Failed to scan message"])) ++ tail, ?_, ?_⟩
    · simp only [scanLoop]
      rw [h1]
      simp
    · intro e he
      rcases List.mem_append.1 he with he | he
      · rcases List.mem_append.1 he with he | he
        · simp only [List.mem_cons, List.mem_singleton, List.not_mem_nil, or_false] at he
          rcases he with he | he
          · exact Or.inl ⟨_, he⟩
          · exact Or.inr (Or.inl ⟨_, he⟩)
        · split at he
          · simp at he
          · exact Or.inr (Or.inr (List.mem_singleton.1 he))
      · exact h2 e he

/-- The loop appends one message per row. -/
theorem scanLoop_length (rs : List Row) (os : List (Option Column)) (st : LoopState) :
    (scanLoop rs os st).messages.length = st.messages.length + rs.length := by
  induction rs generalizing os st with
  | nil => simp [scanLoop]
  | cons r rs ih =>
    simp only [scanLoop]
    rw [ih]
    simp
    omega

/-- An event that the loop never emits occurs in the events after the loop as often as
before it. -/
theorem scanLoop_count (x : RunEvent) (h1 : ∀ b, x ≠ RunEvent.next b)
    (h2 : ∀ b, x ≠ RunEvent.scan b) (h3 : x ≠ RunEvent.logError "Failed to scan message")
    (rs : List Row) (os : List (Option Column)) (st : LoopState) :
    (scanLoop rs os st).events.count x = st.events.count x := by
  obtain ⟨tail, ht, hall⟩ := scanLoop_events rs os st
  rw [ht, List.count_append]
  have : tail.count x = 0 := by
    apply List.count_eq_zero.2
    intro hx
    rcases hall x hx with ⟨b, hb⟩ | ⟨b, hb⟩ | hb
    · exact h1 b hb
    · exact h2 b hb
    · exact h3 hb
  omega

/-- C1 (the code at the failing inputs): `run` ends panicking exactly when `BeginTx` or `Query`
failed.  With a failed `BeginTx` the nil transaction is dereferenced by `tx.Commit()` and again
by the deferred `tx.Rollback()`; with a failed `Query` the nil row set is dereferenced by
`rows.Next()` and again by the deferred `rows.Close()`. -/
theorem run_panics_on_failed_begin_or_query (env : RunEnv) :
    (run env).panicked = (!env.beginOk || !env.queryOk) ∧
    (run envBeginFails).panicked = true ∧
    RunEvent.nilDeref "tx.Commit" ∈ (run envBeginFails).trace ∧
    RunEvent.nilDeref "tx.Rollback" ∈ (run envBeginFails).trace ∧
    (run envQueryFails).panicked = true ∧
    RunEvent.nilDeref "rows.Next" ∈ (run envQueryFails).trace ∧
    RunEvent.nilDeref "rows.Close" ∈ (run envQueryFails).trace := by
  refine ⟨?_, by decide, by decide, by decide, by decide, by decide, by decide⟩
  cases hb : env.beginOk <;> cases hq : env.queryOk <;>
    simp [run, runBody, deferredRowsClose, deferredCleanup, hb, hq]

/-- C2 (the code at the failing input): in every invocation of `run`, `db.Close()` and
`wg.Done()` are each reached once if `BeginTx` succeeded and not at all if it failed, so after
a failed `BeginTx` the WaitGroup counter keeps the value `wg + 1` that `wg.Add(1)` gave it; at
the failing input the trace ends in the panic of `tx.Rollback()`. -/
theorem run_cleanup_skipped_on_failed_begin (env : RunEnv) (wg : Int) :
    (run env).trace.count RunEvent.dbClose = (if env.beginOk then 1 else 0) ∧
    (run env).trace.count RunEvent.wgDone = (if env.beginOk then 1 else 0) ∧
    wgAfter (wg + 1) (run env).trace = (if env.beginOk then wg else wg + 1) ∧
    (run envBeginFails).trace =
      [RunEvent.beginTx false, RunEvent.logError "Failed to begin transaction",
       RunEvent.query Handle.pool true, RunEvent.next true, RunEvent.scan true,
       RunEvent.next false, RunEvent.logInfo "Got messages", RunEvent.logCount 1,
       RunEvent.nilDeref "tx.Commit", RunEvent.rowsClose, RunEvent.nilDeref "tx.Rollback"] := by
  have hc : (run env).trace.count RunEvent.dbClose = (if env.beginOk then 1 else 0) := by
    cases hb : env.beginOk <;> cases hq : env.queryOk <;> cases hm : env.commit <;>
      simp [run, runBody, deferredRowsClose, deferredCleanup, hb, hq, hm, List.count_append,
        scanLoop_count]
  have hd : (run env).trace.count RunEvent.wgDone = (if env.beginOk then 1 else 0) := by
    cases hb : env.beginOk <;> cases hq : env.queryOk <;> cases hm : env.commit <;>
      simp [run, runBody, deferredRowsClose, deferredCleanup, hb, hq, hm, List.count_append,
        scanLoop_count]
  refine ⟨hc, hd, ?_, by decide⟩
  unfold wgAfter
  rw [hd]
  cases env.beginOk <;> simp

/-- C3 (the code on every input): the only statement `run` issues is the `Query` on the pool
`db`; no statement is ever issued on the transaction handle `tx`. -/
theorem run_query_on_pool (env : RunEnv) (ok : Bool) :
    (run env).trace.count (RunEvent.query Handle.tx ok) = 0 ∧
    (run env).trace.count (RunEvent.query Handle.pool env.queryOk) = 1 ∧
    (run envAllOk).panicked = false ∧
    (run envAllOk).trace =
      [RunEvent.beginTx true, RunEvent.query Handle.pool true, RunEvent.next true,
       RunEvent.scan true, RunEvent.next false, RunEvent.logInfo "Got messages",
       RunEvent.logCount 1, RunEvent.commit true, RunEvent.logInfo "Commited. Iteration done",
       RunEvent.rowsClose, RunEvent.rollback false, RunEvent.dbClose, RunEvent.wgDone] := by
  refine ⟨?_, ?_, by decide, by decide⟩
  · cases hb : env.beginOk <;> cases hq : env.queryOk <;> cases hm : env.commit <;>
      simp [run, runBody, deferredRowsClose, deferredCleanup, hb, hq, hm, List.count_append,
        scanLoop_count]
  · cases hb : env.beginOk <;> cases hq : env.queryOk <;> cases hm : env.commit <;>
      simp [run, runBody, deferredRowsClose, deferredCleanup, hb, hq, hm, List.count_append,
        scanLoop_count]

/-- A scan that succeeds copies the status of the row. -/
theorem Scan_ok_status (r : Row) : (Scan none r).1.Status = r.status := by
  simp [Scan, scanColumns, Column.all, assignColumn]

/-- When every scan succeeds, the loop appends the scanned rows in order. -/
theorem scanLoop_messages_ok (rs : List Row) (os : List (Option Column)) (st : LoopState)
    (hos : ∀ o ∈ os, o = none) :
    (scanLoop rs os st).messages = st.messages ++ rs.map (fun r => (Scan none r).1) := by
  induction rs generalizing os st with
  | nil => simp [scanLoop]
  | cons r rs ih =>
    have hhead : os.headD none = none := by
      cases os with
      | nil => rfl
      | cons o os1 => exact hos o (List.mem_cons_self o os1)
    have htail : ∀ o ∈ os.tail, o = none := fun o ho => hos o (List.mem_of_mem_tail ho)
    simp only [scanLoop]
    rw [ih os.tail _ htail, hhead]
    simp

/-- When the query returns its rows and every scan succeeds, every message of the batch has
the status `new`. -/
theorem run_status_new_of_scans_ok (env : RunEnv) (hq : env.queryOk = true)
    (hos : ∀ o ∈ env.scans, o = none) : ∀ m ∈ (run env).messages, m.Status = "new" := by
  intro m hm
  have hmsg : (run env).messages = (selectForUpdate env.table).map (fun r => (Scan none r).1) := by
    cases hb : env.beginOk <;> simp [run, runBody, hb, hq, scanLoop_messages_ok _ _ _ hos]
  rw [hmsg] at hm
  obtain ⟨r, hr, rfl⟩ := List.mem_map.1 hm
  rw [Scan_ok_status]
  have hf := List.mem_of_mem_take hr
  simpa using (List.mem_filter.1 hf).2

/-- C7 (the code at the failing input): when the scan of a row fails before the destination
`status`, the message appended to the batch has the empty status, not `new`. -/
theorem run_appends_after_failed_scan :
    (run envScanFails).panicked = false ∧
    (run envScanFails).messages =
      [{ ID := 1, Body := "", Meta := "", Status := "", AttemptCount := 0 }] ∧
    ¬ (∀ m ∈ (run envScanFails).messages, m.Status = "new") := by
  refine ⟨by decide, by decide, by decide⟩

/-- C6: when the query returns its rows, the batch materialised by `run` has length
`min 10 n`, where `n` is the number of rows with status `new`, for every table content and
every outcome of `BeginTx`, of the scans and of `Commit`: it has exactly 10 messages when 25
rows are eligible, and when no row is eligible it is empty, `Commit` is still executed (given
the transaction was begun) and, if `Commit` succeeds, no error is logged and `run` returns. -/
theorem run_batch_length (env : RunEnv) (hq : env.queryOk = true) :
    (run env).messages.length =
      min 10 (env.table.filter (fun r => r.status = "new")).length ∧
    ((env.table.filter (fun r => r.status = "new")).length = 25 →
      (run env).messages.length = 10) ∧
    ((env.table.filter (fun r => r.status = "new")).length = 0 →
      (run env).messages = [] ∧
      (env.beginOk = true →
        RunEvent.commit (decide (env.commit = CommitOutcome.ok)) ∈ (run env).trace) ∧
      (env.beginOk = true → env.commit = CommitOutcome.ok →
        errorLogs (run env).trace = [] ∧ (run env).panicked = false)) := by
  have hlen : (run env).messages.length =
      min 10 (env.table.filter (fun r => r.status = "new")).length := by
    cases hb : env.beginOk <;>
      simp [run, runBody, hb, hq, scanLoop_length, selectForUpdate, List.length_take]
  refine ⟨hlen, ?_, ?_⟩
  · intro h25
    rw [hlen, h25]
    rfl
  · intro h0
    have hsel : selectForUpdate env.table = [] := by
      have : (env.table.filter (fun r => r.status = "new")) = [] := List.length_eq_zero.1 h0
      simp [selectForUpdate, this]
    refine ⟨?_, ?_, ?_⟩
    · apply List.length_eq_zero.1
      rw [hlen, h0]
      rfl
    · intro hb
      simp [run, runBody, hb, hq, hsel, scanLoop]
    · intro hb hc
      simp [run, runBody, deferredRowsClose, deferredCleanup, hb, hq, hc, hsel, scanLoop,
        errorLogs]

/-- Witness of C6: the theorem at a table with 25 eligible rows. -/
theorem run_batch_length_witness :
    env25.queryOk = true ∧ (run env25).messages.length = 10 :=
  ⟨rfl, (run_batch_length env25 rfl).2.1 (by decide)⟩

/-! ## Theorems: one round of the orchestrator loop -/

/-- An event is in the trace of the loop exactly when it is in the trace of the body for some
backend of the round. -/
theorem mem_roundLoop (e : MainEvent) (bs : List Backend) :
    e ∈ roundLoop bs ↔ ∃ b ∈ bs, e ∈ (connect b).1 := by
  induction bs with
  | nil => simp [roundLoop]
  | cons b rest ih => simp [roundLoop, ih]

/-- The trace of the body for a backend of the round is a segment of the trace of the loop. -/
theorem connect_segment (b : Backend) (bs : List Backend) (hb : b ∈ bs) :
    ∃ pre post, roundLoop bs = pre ++ (connect b).1 ++ post := by
  induction bs with
  | nil => simp at hb
  | cons c rest ih =>
    rcases List.mem_cons.1 hb with h | h
    · subst h
      exact ⟨[], roundLoop rest, by simp [roundLoop]⟩
    · obtain ⟨pre, post, hp⟩ := ih h
      exact ⟨(connect c).1 ++ pre, post, by simp [roundLoop, hp]⟩

/-- The launch flag of the body is the conjunction of the three outcomes. -/
theorem connect_launch (b : Backend) :
    (connect b).2 = (b.openOk && b.pingOk && b.probeOk) := by
  cases ho : b.openOk <;> cases hp : b.pingOk <;> cases hq : b.probeOk <;>
    simp [connect, ho, hp, hq]

/-- The body launches the worker of its own backend, and only when the three steps
succeeded. -/
theorem go_mem_connect (n : String) (b : Backend) :
    MainEvent.go n ∈ (connect b).1 ↔
      (b.name = n ∧ b.openOk = true ∧ b.pingOk = true ∧ b.probeOk = true) := by
  cases ho : b.openOk <;> cases hp : b.pingOk <;> cases hq : b.probeOk <;>
    simp [connect, ho, hp, hq, eq_comm]

/-- The body opens the connection of its own backend. -/
theorem sqlOpen_mem_connect (n : String) (ok : Bool) (b : Backend) :
    MainEvent.sqlOpen n ok ∈ (connect b).1 ↔ (b.name = n ∧ b.openOk = ok) := by
  cases ho : b.openOk <;> cases hp : b.pingOk <;> cases hq : b.probeOk <;>
    simp [connect, ho, hp, hq, eq_comm]

/-- The body pings its own backend, and only after a successful open. -/
theorem ping_mem_connect (n : String) (ok : Bool) (b : Backend) :
    MainEvent.ping n ok ∈ (connect b).1 ↔ (b.name = n ∧ b.openOk = true ∧ b.pingOk = ok) := by
  cases ho : b.openOk <;> cases hp : b.pingOk <;> cases hq : b.probeOk <;>
    simp [connect, ho, hp, hq, eq_comm]

/-- The body probes its own backend, and only after a successful open and ping. -/
theorem probe_mem_connect (n : String) (ok : Bool) (b : Backend) :
    MainEvent.probe n ok ∈ (connect b).1 ↔
      (b.name = n ∧ b.openOk = true ∧ b.pingOk = true ∧ b.probeOk = ok) := by
  cases ho : b.openOk <;> cases hp : b.pingOk <;> cases hq : b.probeOk <;>
    simp [connect, ho, hp, hq, eq_comm]

/-- A backend is among the launched ones exactly when it is in the round and its body
launched. -/
theorem mem_launched (b : Backend) (bs : List Backend) :
    b ∈ launched bs ↔ (b ∈ bs ∧ (connect b).2 = true) := by
  induction bs with
  | nil => simp [launched]
  | cons c rest ih =>
    simp only [launched]
    split
    · rename_i hc
      simp only [List.mem_cons, ih]
      constructor
      · rintro (h | h)
        · subst h
          exact ⟨Or.inl rfl, hc⟩
        · exact ⟨Or.inr h.1, h.2⟩
      · rintro ⟨h | h, h2⟩
        · exact Or.inl h
        · exact Or.inr ⟨h, h2⟩
    · rename_i hc
      simp only [List.mem_cons, ih]
      constructor
      · rintro ⟨h, h2⟩
        exact ⟨Or.inr h, h2⟩
      · rintro ⟨h | h, h2⟩
        · subst h
          exact absurd h2 hc
        · exact ⟨h, h2⟩

/-- C4: within one round, for every backend of the map (keys are unique), the worker is
launched if and only if `sql.Open`, `db.Ping` and the probe query all succeed, the launch being
`wg.Add(1)` immediately followed by `go run`; `sql.Open` is attempted for every backend of the
round whatever happened to the others; `Ping` is attempted only after a successful open and
the probe only after a successful open and ping. -/
theorem round_launch_iff_admitted (bs : List Backend) (hnd : (bs.map Backend.name).Nodup)
    (b : Backend) (hb : b ∈ bs) :
    (MainEvent.go b.name ∈ roundLoop bs ↔
      (b.openOk = true ∧ b.pingOk = true ∧ b.probeOk = true)) ∧
    (b ∈ launched bs ↔ (b.openOk = true ∧ b.pingOk = true ∧ b.probeOk = true)) ∧
    ((b.openOk = true ∧ b.pingOk = true ∧ b.probeOk = true) →
      ∃ pre post, roundLoop bs = pre ++ [MainEvent.wgAdd, MainEvent.go b.name] ++ post) ∧
    MainEvent.sqlOpen b.name b.openOk ∈ roundLoop bs ∧
    (∀ ok, MainEvent.ping b.name ok ∈ roundLoop bs ↔ (b.openOk = true ∧ b.pingOk = ok)) ∧
    (∀ ok, MainEvent.probe b.name ok ∈ roundLoop bs ↔
      (b.openOk = true ∧ b.pingOk = true ∧ b.probeOk = ok)) := by
  have same : ∀ c ∈ bs, c.name = b.name → c = b := fun c hc h =>
    List.inj_on_of_nodup_map hnd hc hb h
  refine ⟨?_, ?_, ?_, ?_, ?_, ?_⟩
  · rw [mem_roundLoop]
    constructor
    · rintro ⟨c, hc, hgo⟩
      have h := (go_mem_connect b.name c).1 hgo
      rw [same c hc h.1] at h
      exact h.2
    · intro h
      exact ⟨b, hb, (go_mem_connect b.name b).2 ⟨rfl, h⟩⟩
  · rw [mem_launched, connect_launch]
    simp [hb, and_assoc]
  · rintro ⟨ho, hp, hq⟩
    obtain ⟨pre, post, hseg⟩ := connect_segment b bs hb
    refine ⟨pre ++ [MainEvent.logInfo "Registering service" b.name,
      MainEvent.sqlOpen b.name b.openOk, MainEvent.ping b.name b.pingOk,
      MainEvent.probe b.name b.probeOk], post, ?_⟩
    rw [hseg]
    simp [connect, ho, hp, hq]
  · rw [mem_roundLoop]
    exact ⟨b, hb, (sqlOpen_mem_connect b.name b.openOk b).2 ⟨rfl, rfl⟩⟩
  · intro ok
    rw [mem_roundLoop]
    constructor
    · rintro ⟨c, hc, hev⟩
      have h := (ping_mem_connect b.name ok c).1 hev
      rw [same c hc h.1] at h
      exact h.2
    · intro h
      exact ⟨b, hb, (ping_mem_connect b.name ok b).2 ⟨rfl, h⟩⟩
  · intro ok
    rw [mem_roundLoop]
    constructor
    · rintro ⟨c, hc, hev⟩
      have h := (probe_mem_connect b.name ok c).1 hev
      rw [same c hc h.1] at h
      exact h.2
    · intro h
      exact ⟨b, hb, (probe_mem_connect b.name ok b).2 ⟨rfl, h⟩⟩

/-- Witness of C4: in the round of three backends, the one rejected at the ping gets no worker
and the admitted one gets its worker. -/
theorem round_launch_iff_admitted_witness :
    (roundMixed.map Backend.name).Nodup ∧
    MainEvent.go "Third" ∈ roundLoop roundMixed ∧
    ¬ MainEvent.go "Any" ∈ roundLoop roundMixed :=
  ⟨by decide,
   (round_launch_iff_admitted roundMixed (by decide) backendOk (by simp [roundMixed])).1.2
     ⟨rfl, rfl, rfl⟩,
   fun h => Bool.false_ne_true
     ((round_launch_iff_admitted roundMixed (by decide) backendPingFails
       (by simp [roundMixed])).1.1 h).2.1⟩

/-- C5 (the code at the failing input): in a round that ran to its end, the connections of the
backends rejected at the ping and at the probe were opened and never closed, while the
connection of the admitted backend was closed by its worker. -/
theorem rejected_backend_connection_left_open :
    MainEvent.sqlOpen "Any" true ∈ round roundMixed ∧
    MainEvent.worker "Any" RunEvent.dbClose ∉ round roundMixed ∧
    MainEvent.sqlOpen "Other" true ∈ round roundMixed ∧
    MainEvent.worker "Other" RunEvent.dbClose ∉ round roundMixed ∧
    MainEvent.worker "Third" RunEvent.dbClose ∈ round roundMixed ∧
    MainEvent.crash ∉ round roundMixed ∧
    MainEvent.sleep ∈ round roundMixed := by
  refine ⟨by decide, by decide, by decide, by decide, by decide, by decide, by decide⟩

/-! ## Theorems: the process -/

/-- Rounds counted over a concatenation. -/
theorem roundCount_append (l1 l2 : List MainEvent) :
    roundCount (l1 ++ l2) = roundCount l1 + roundCount l2 := by
  simp [roundCount, List.count_append]

/-- Launches counted over a concatenation. -/
theorem launchCount_append (l1 l2 : List MainEvent) :
    launchCount (l1 ++ l2) = launchCount l1 + launchCount l2 := by
  simp [launchCount, List.filter_append]

/-- The body of the loop calls `GetServicesList` never and launches once exactly when the three
steps succeed. -/
theorem connect_counts (b : Backend) :
    roundCount (connect b).1 = 0 ∧
    launchCount (connect b).1 = (if (b.openOk && b.pingOk && b.probeOk) = true then 1 else 0) := by
  cases ho : b.openOk <;> cases hp : b.pingOk <;> cases hq : b.probeOk <;>
    simp [connect, ho, hp, hq, roundCount, launchCount, isGo]

/-- The events of a worker contain no call of `GetServicesList` and no launch. -/
theorem worker_counts (n : String) (l : List RunEvent) :
    roundCount (l.map (MainEvent.worker n)) = 0 ∧ launchCount (l.map (MainEvent.worker n)) = 0 := by
  induction l with
  | nil => simp [roundCount, launchCount]
  | cons e l ih =>
    obtain ⟨h1, h2⟩ := ih
    simp only [roundCount, launchCount] at h1 h2 ⊢
    constructor
    · simp [List.count_cons, h1]
    · simp [List.filter_cons, isGo, h2]

/-- A step of the main goroutine leaves the signal goroutine, the context and the two end
flags as they are. -/
theorem mainStep_frame (o : ConnOutcome) (s t : Proc) (h : mainStep o s = some t) :
    t.handlerPc = s.handlerPc ∧ t.ctxCancelled = s.ctxCancelled ∧ t.exited = s.exited ∧
    t.crashed = s.crashed := by
  unfold mainStep at h
  split at h
  · cases h
    exact ⟨rfl, rfl, rfl, rfl⟩
  · cases h
    exact ⟨rfl, rfl, rfl, rfl⟩
  · cases h
    exact ⟨rfl, rfl, rfl, rfl⟩
  · split at h
    · cases h
      exact ⟨rfl, rfl, rfl, rfl⟩
    · cases h
  · cases h
    exact ⟨rfl, rfl, rfl, rfl⟩

/-- The run of a worker leaves the two goroutines, the context and the exit flag as they are,
and adds no call of `GetServicesList` and no launch. -/
theorem workerStep_frame (n : String) (env : RunEnv) (s t : Proc)
    (h : workerStep n env s = some t) :
    t.handlerPc = s.handlerPc ∧ t.ctxCancelled = s.ctxCancelled ∧ t.exited = s.exited ∧
    t.mainPc = s.mainPc ∧ roundsStarted t = roundsStarted s ∧ launches t = launches s := by
  unfold workerStep at h
  split at h
  · simp only at h
    split at h
    · cases h
      refine ⟨rfl, rfl, rfl, rfl, ?_, ?_⟩
      · simp [roundsStarted, roundCount_append, (worker_counts n _).1]
        simp [roundCount]
      · simp [launches, launchCount_append, (worker_counts n _).2]
        simp [launchCount, isGo]
    · cases h
      refine ⟨rfl, rfl, rfl, rfl, ?_, ?_⟩
      · simp [roundsStarted, roundCount_append, (worker_counts n _).1]
      · simp [launches, launchCount_append, (worker_counts n _).2]
  · cases h

/-- A step of the signal goroutine adds no call of `GetServicesList` and no launch, and leaves
the main goroutine where it stands. -/
theorem handlerStep_frame (s t : Proc) (h : handlerStep s = some t) :
    t.mainPc = s.mainPc ∧ roundsStarted t = roundsStarted s ∧ launches t = launches s := by
  unfold handlerStep at h
  split at h
  · split at h
    · cases h
    · cases h
      exact ⟨rfl, rfl, rfl⟩
  all_goals
    cases h
    refine ⟨rfl, ?_, ?_⟩
    · simp [roundsStarted, roundCount_append, roundCount]
    · simp [launches, launchCount_append, launchCount, isGo]

/-- An enabled action starts a round exactly when it is the step of the main goroutine at
line 93, and launches a worker exactly when it is the step of the main goroutine that visits a
backend whose three connector steps succeed. -/
theorem step_counts (a : Action) (s t : Proc) (h : step a s = some t) :
    roundsStarted t = roundsStarted s + (if startsRound a s = true then 1 else 0) ∧
    launches t = launches s + (if launchesWorker a s = true then 1 else 0) := by
  unfold step at h
  split at h
  · cases h
  · cases a with
    | signal =>
      simp only at h
      split at h <;> cases h <;> simp [startsRound, launchesWorker, roundsStarted, launches]
    | handler =>
      simp only at h
      obtain ⟨_, h2, h3⟩ := handlerStep_frame s t h
      simp [startsRound, launchesWorker, h2, h3]
    | worker n env =>
      simp only at h
      obtain ⟨_, _, _, _, h2, h3⟩ := workerStep_frame n env s t h
      simp [startsRound, launchesWorker, h2, h3]
    | main o =>
      simp only at h
      unfold mainStep at h
      split at h
      · rename_i hpc
        cases h
        simp [startsRound, launchesWorker, hpc, roundsStarted, launches, roundCount_append,
          launchCount_append, roundCount, launchCount, isGo]
      · rename_i hpc
        cases h
        simp [startsRound, launchesWorker, hpc, roundsStarted, launches]
      · rename_i name cfg rest hpc
        cases h
        have hc := connect_counts
          (Backend.mk name cfg o.openOk o.pingOk o.probeOk RunEnv.idle)
        simp only [startsRound, launchesWorker, hpc, roundsStarted, launches, roundCount_append,
          launchCount_append, hc.1, hc.2]
        simp
      · rename_i hpc
        split at h
        · cases h
          simp [startsRound, launchesWorker, hpc, roundsStarted, launches, roundCount_append,
            launchCount_append, roundCount, launchCount, isGo]
        · cases h
      · rename_i hpc
        cases h
        simp [startsRound, launchesWorker, hpc, roundsStarted, launches, roundCount_append,
          launchCount_append, roundCount, launchCount, isGo]

/-- An enabled statement of the signal goroutine lowers the number of its remaining statements
by one; every other enabled action leaves that number as it is. -/
theorem step_handlerRemaining (a : Action) (s t : Proc) (h : step a s = some t) :
    handlerRemaining t + (if a = Action.handler then 1 else 0) = handlerRemaining s := by
  unfold step at h
  split at h
  · cases h
  · rename_i hend
    have hex : s.exited = false := by
      cases hx : s.exited
      · rfl
      · simp [hx] at hend
    cases a with
    | signal =>
      simp only at h
      split at h <;> cases h <;> simp [handlerRemaining]
    | handler =>
      simp only [handlerStep] at h
      split at h
      · rename_i hpc
        split at h
        · cases h
        · cases h
          simp [handlerRemaining, hpc]
      · rename_i hpc
        cases h
        simp [handlerRemaining, hpc]
      · rename_i hpc
        cases h
        simp [handlerRemaining, hpc]
      · rename_i hpc
        cases h
        simp [handlerRemaining, hpc, hex]
      · rename_i hpc
        cases h
        simp [handlerRemaining, hpc, hex]
    | main o =>
      simp only at h
      obtain ⟨h1, _, h3, _⟩ := mainStep_frame o s t h
      simp [handlerRemaining, h1, h3]
    | worker n env =>
      simp only at h
      obtain ⟨h1, _, h3, _⟩ := workerStep_frame n env s t h
      simp [handlerRemaining, h1, h3]

/-- Along a schedule, the statements the signal goroutine had to execute are those it executed
plus those it has still to execute. -/
theorem exec_handlerRemaining (more : List Action) (s t : Proc) (h : exec more s = some t) :
    handlerRemaining t + more.count Action.handler = handlerRemaining s := by
  induction more generalizing s with
  | nil =>
    simp only [exec, Option.some.injEq] at h
    simp [h]
  | cons a rest ih =>
    simp only [exec] at h
    cases hst : step a s with
    | none => simp [hst] at h
    | some u =>
      rw [hst] at h
      have h1 := ih u h
      have h2 := step_handlerRemaining a s u hst
      rw [List.count_cons]
      by_cases ha : a = Action.handler
      · simp [ha] at h2 ⊢
        omega
      · simp [ha] at h2 ⊢
        omega

/-- Every enabled action preserves the order of the signal goroutine. -/
theorem step_cancelBeforeExit (a : Action) (s t : Proc) (h : step a s = some t)
    (hi : CancelBeforeExit s) : CancelBeforeExit t := by
  unfold step at h
  split at h
  · cases h
  · rename_i hend
    have hex : s.exited = false := by
      cases hx : s.exited
      · rfl
      · simp [hx] at hend
    cases a with
    | signal =>
      simp only at h
      split at h <;> cases h <;> exact hi
    | handler =>
      simp only [handlerStep] at h
      obtain ⟨hi1, hi2⟩ := hi
      split at h
      · rename_i hpc
        split at h
        · cases h
        · cases h
          simp [CancelBeforeExit, hpc, hex] at hi1 ⊢
          exact hi1
      · rename_i hpc
        cases h
        simp [CancelBeforeExit, hpc, hex] at hi1 ⊢
        exact hi1
      · rename_i hpc
        cases h
        simp [CancelBeforeExit, hex]
      · rename_i hpc
        cases h
        simp [CancelBeforeExit, hpc, hex] at hi1 ⊢
        exact hi1
      · rename_i hpc
        cases h
        simp [CancelBeforeExit, hpc] at hi1 ⊢
        exact hi1
    | main o =>
      simp only at h
      obtain ⟨h1, h2, h3, _⟩ := mainStep_frame o s t h
      unfold CancelBeforeExit
      rw [h1, h2, h3]
      exact hi
    | worker n env =>
      simp only at h
      obtain ⟨h1, h2, h3, _⟩ := workerStep_frame n env s t h
      unfold CancelBeforeExit
      rw [h1, h2, h3]
      exact hi

/-- Every schedule preserves the order of the signal goroutine. -/
theorem exec_cancelBeforeExit (acts : List Action) (s t : Proc) (h : exec acts s = some t)
    (hi : CancelBeforeExit s) : CancelBeforeExit t := by
  induction acts generalizing s with
  | nil =>
    simp only [exec, Option.some.injEq] at h
    exact h ▸ hi
  | cons a rest ih =>
    simp only [exec] at h
    cases hst : step a s with
    | none => simp [hst] at h
    | some u =>
      rw [hst] at h
      exact ih u h (step_cancelBeforeExit a s u hst hi)

/-- Along a schedule, the rounds started are those of the steps of the main goroutine at
line 93 and the launches are those of its visits of admitted backends: with no step of the main
goroutine in the schedule, no round is started and no worker is launched. -/
theorem exec_counts_without_main (more : List Action) (s t : Proc) (h : exec more s = some t)
    (hm : ∀ a ∈ more, ∀ o, a ≠ Action.main o) :
    roundsStarted t = roundsStarted s ∧ launches t = launches s := by
  induction more generalizing s with
  | nil =>
    simp only [exec, Option.some.injEq] at h
    simp [h]
  | cons a rest ih =>
    simp only [exec] at h
    cases hst : step a s with
    | none => simp [hst] at h
    | some u =>
      rw [hst] at h
      obtain ⟨h1, h2⟩ := ih u h (fun b hb => hm b (List.mem_cons_of_mem a hb))
      obtain ⟨h3, h4⟩ := step_counts a s u hst
      have hna : ∀ o, a ≠ Action.main o := hm a (List.mem_cons_self a rest)
      have hs1 : startsRound a s = false := by
        cases a with
        | main o => exact absurd rfl (hna o)
        | signal => simp [startsRound]
        | handler => simp [startsRound]
        | worker n env => simp [startsRound]
      have hs2 : launchesWorker a s = false := by
        cases a with
        | main o => exact absurd rfl (hna o)
        | signal => simp [launchesWorker]
        | handler => simp [launchesWorker]
        | worker n env => simp [launchesWorker]
      simp [hs1, hs2] at h3 h4
      exact ⟨h1.trans h3, h2.trans h4⟩

/-- The signal goroutine has nothing left to execute only when the process has exited. -/
theorem exited_of_handlerRemaining_zero (t : Proc) (h : handlerRemaining t = 0) :
    t.exited = true := by
  unfold handlerRemaining at h
  split at h <;> try omega
  split at h
  · assumption
  · omega

/-- After the process has ended no schedule makes any step. -/
theorem exec_ended (more : List Action) (s t : Proc)
    (hend : s.exited = true ∨ s.crashed = true) (h : exec more s = some t) : t = s := by
  cases more with
  | nil =>
    simp only [exec, Option.some.injEq] at h
    exact h.symm
  | cons a rest =>
    rcases hend with hend | hend <;> simp [exec, step, hend] at h

/-- C9 as stated fails: after the signal goroutine has called `cancel()` and before it reaches
`os.Exit(1)`, the main goroutine, which never reads the context, calls `GetServicesList` and
launches a worker. -/
theorem round_starts_after_cancel : ¬ NoRoundAfterCancel := by
  intro h
  have hs : exec schedCancelled Proc.init = some procCancelled := rfl
  have ht : exec schedRound procCancelled = some procNextRound := rfl
  have hc : procCancelled.ctxCancelled = true := rfl
  have h2 := (h schedCancelled procCancelled hs hc _ procNextRound ht).1
  have h0 : roundsStarted procCancelled = 0 := by decide
  have h1 : roundsStarted procNextRound = 1 := by decide
  omega

/-- C9 as amended: cancellation does not stop the loop, it is the exit that follows it which
ends the rounds.  In every reachable state the process has exited only after the context was
cancelled, and if the context is cancelled then
(1) the signal goroutine has only `signal.Stop(c)` and `os.Exit(1)` left;
(2) while the process has not ended, the signal goroutine by itself brings it to the exit
    within these two statements, with no call of `GetServicesList` and no launch on the way;
(3) an enabled action starts a round exactly when it is the step of the main goroutine at
    line 93 and launches a worker exactly when it is the visit of an admitted backend, and
    while the process has not ended the step at line 93 is enabled and starts a round;
(4) in every continuation the signal goroutine executes at most its two remaining statements,
    the process has exited once it has executed them, and a continuation without a step of
    the main goroutine starts no round and launches no worker;
(5) once the process has ended, no continuation changes the state. -/
theorem cancelled_loop_runs_until_exit (acts : List Action) (s : Proc)
    (hs : exec acts Proc.init = some s) :
    (s.exited = true → s.ctxCancelled = true) ∧
    (s.ctxCancelled = true →
      ((s.handlerPc = HandlerPc.stop ∨ s.handlerPc = HandlerPc.exit) ∧ handlerRemaining s ≤ 2) ∧
      (s.exited = false → s.crashed = false →
        ∃ t, exec (List.replicate (handlerRemaining s) Action.handler) s = some t ∧
          t.exited = true ∧ roundsStarted t = roundsStarted s ∧ launches t = launches s) ∧
      (∀ a t, step a s = some t →
        roundsStarted t = roundsStarted s + (if startsRound a s = true then 1 else 0) ∧
        launches t = launches s + (if launchesWorker a s = true then 1 else 0)) ∧
      (s.exited = false → s.crashed = false → s.mainPc = MainPc.fetch →
        ∀ o, ∃ t, step (Action.main o) s = some t ∧ roundsStarted t = roundsStarted s + 1) ∧
      (∀ more t, exec more s = some t →
        more.count Action.handler ≤ 2 ∧
        (more.count Action.handler = handlerRemaining s → t.exited = true) ∧
        ((∀ a ∈ more, ∀ o, a ≠ Action.main o) →
          roundsStarted t = roundsStarted s ∧ launches t = launches s)) ∧
      ((s.exited = true ∨ s.crashed = true) →
        ∀ more t, exec more s = some t →
          t = s ∧ roundsStarted t = roundsStarted s ∧ launches t = launches s)) := by
  have hinit : CancelBeforeExit Proc.init := by
    refine ⟨?_, ?_⟩
    · simp [Proc.init]
    · intro h
      cases h
  have hi := exec_cancelBeforeExit acts Proc.init s hs hinit
  refine ⟨fun hex => hi.1.2 (Or.inr (hi.2 hex)), ?_⟩
  intro hc
  have hpc := hi.1.1 hc
  have hrem : handlerRemaining s ≤ 2 := by
    unfold handlerRemaining
    rcases hpc with hpc | hpc
    · rw [hpc]
    · rw [hpc]
      show (if s.exited = true then 0 else 1) ≤ 2
      split <;> omega
  refine ⟨⟨hpc, hrem⟩, ?_, ?_, ?_, ?_, ?_⟩
  · intro hex hcr
    have hsome : ∃ t, exec (List.replicate (handlerRemaining s) Action.handler) s = some t := by
      apply Option.isSome_iff_exists.1
      rcases hpc with hpc | hpc <;>
        simp [handlerRemaining, hpc, List.replicate, exec, step, handlerStep, hex, hcr]
    obtain ⟨t, ht⟩ := hsome
    have h1 := exec_handlerRemaining _ s t ht
    have h2 := exec_counts_without_main _ s t ht (by
      intro a ha o hao
      rw [List.eq_of_mem_replicate ha] at hao
      cases hao)
    refine ⟨t, ht, ?_, h2.1, h2.2⟩
    apply exited_of_handlerRemaining_zero
    rw [List.count_replicate_self] at h1
    omega
  · intro a t ht
    exact step_counts a s t ht
  · intro hex hcr hfetch o
    have hen : ∃ t, step (Action.main o) s = some t := by
      apply Option.isSome_iff_exists.1
      simp [step, hex, hcr, mainStep, hfetch]
    obtain ⟨t, ht⟩ := hen
    refine ⟨t, ht, ?_⟩
    have h1 := (step_counts _ s t ht).1
    simpa [startsRound, hfetch] using h1
  · intro more t ht
    have h1 := exec_handlerRemaining more s t ht
    refine ⟨by omega, ?_, ?_⟩
    · intro heq
      apply exited_of_handlerRemaining_zero
      omega
    · intro hm
      exact exec_counts_without_main more s t ht hm
  · intro hend more t ht
    have := exec_ended more s t hend ht
    subst this
    exact ⟨rfl, rfl, rfl⟩

/-- Witness of C9 as amended: the reachable state in which the context is cancelled and the
main goroutine has since started a round and launched a worker.  From it the signal goroutine
ends the process by `os.Exit(1)` in two statements with no further round or launch, while the
worker launched after the cancellation, if it runs first, fails `BeginTx` and ends the
process by its panic. -/
theorem cancelled_loop_runs_until_exit_witness :
    exec (schedCancelled ++ schedRound) Proc.init = some procNextRound ∧
    procNextRound.ctxCancelled = true ∧
    roundsStarted procNextRound = 1 ∧ launches procNextRound = 1 ∧
    handlerRemaining procNextRound = 2 ∧
    (∃ t, exec (List.replicate (handlerRemaining procNextRound) Action.handler) procNextRound =
        some t ∧
      t.exited = true ∧ roundsStarted t = roundsStarted procNextRound ∧
      launches t = launches procNextRound) ∧
    (exec [Action.worker "Any" RunEnv.idle] procNextRound).map (fun t => (t.crashed, t.exited)) =
      some (true, false) :=
  ⟨rfl, rfl, by decide, by decide, by decide,
   ((cancelled_loop_runs_until_exit (schedCancelled ++ schedRound) procNextRound rfl).2 rfl).2.1
     rfl rfl,
   by decide⟩

end Goboxer
